import Mathlib

/-!
Verification of the stake-monitor program (src/main.rs).

Machine integers from the source are modelled as `Nat` (U256 values, with
explicit bounds of 2 ^ 256 where overflow or range matters) and `Int`
(I256 values).  Decimal rendering of unsigned integers (the Rust
`Display`/`to_string` for `U256`) is modelled by `natToString` below.
-/

/-- Little-endian decimal digits of a natural number, driven by explicit
fuel so that the recursion is structural and kernel-reducible.  With
`fuel ≥ n` this computes exactly the base-10 digits of `n`
(least-significant first), as proved in `digitsRevGo_eq_digits`. -/
def digitsRevGo : Nat → Nat → List Nat
  | 0, _ => []
  | _ + 1, 0 => []
  | fuel + 1, n + 1 => ((n + 1) % 10) :: digitsRevGo fuel ((n + 1) / 10)

/-- Little-endian decimal digits of `n` (empty for `n = 0`). -/
def natDigitsLE (n : Nat) : List Nat := digitsRevGo n n

/-- Model of the decimal rendering used by Rust `to_string` on unsigned
256-bit integers: most-significant digit first, no leading zeros, and
`"0"` for zero.  No scientific notation and no precision loss. -/
def natToString (n : Nat) : String :=
  if n = 0 then "0" else String.mk ((natDigitsLE n).reverse.map Nat.digitChar)

/-- Model of the Rust formatter `\x7b:0width$\x7d` on an unsigned integer
argument already rendered as `s`: left-pad with the character 0 up to a
minimum width `w`. -/
def padZeros (w : Nat) (s : String) : String :=
  String.mk (List.replicate (w - s.length) '0' ++ s.data)

/-- Model of Rust `trim_end_matches` with the character 0: remove every
trailing 0 character. -/
def trimTrailingZeros (s : String) : String :=
  String.mk ((s.data.reverse.dropWhile (fun c => c = '0')).reverse)

/-- Embedding of `CompoundMonitor::format_balance` (src/main.rs lines
455-475): integer part, then a fractional part obtained by zero-padding
the remainder to width `divisor.to_string().len() - 1` and stripping
trailing zeros. -/
def format_balance (balance divisor : Nat) : String :=
  if divisor = 0 then natToString balance
  else
    let whole := balance / divisor
    let remainder := balance % divisor
    if remainder = 0 then natToString whole
    else
      let decimalsStr := padZeros ((natToString divisor).length - 1) (natToString remainder)
      let trimmed := trimTrailingZeros decimalsStr
      if trimmed = "" then natToString whole
      else natToString whole ++ "." ++ trimmed

/-- The number of decimal digits of `n` (zero for `n = 0`). -/
def digitCount (n : Nat) : Nat := (Nat.digits 10 n).length

/-- Algorithm of section 4.3 of the spec, written from the words of the
spec: degenerate guard for divisor zero; whole part only for remainder
zero; otherwise the remainder rendered as a zero-padded fixed-width
decimal fraction (width = number of digits in the divisor minus one) with
trailing zeros stripped, falling back to the whole part alone when the
stripping empties the fraction. -/
def format_balance_spec (raw divisor : Nat) : String :=
  if divisor = 0 then natToString raw
  else
    let whole := raw / divisor
    let remainder := raw % divisor
    if remainder = 0 then natToString whole
    else
      let frac := trimTrailingZeros (padZeros (digitCount divisor - 1) (natToString remainder))
      if frac = "" then natToString whole
      else natToString whole ++ "." ++ frac

/-- Numeric value of a decimal digit character. -/
def charToDigit (c : Char) : Nat := c.toNat - '0'.toNat

/-- Value of a most-significant-first string of decimal digit characters. -/
def parseDecimal (l : List Char) : Nat :=
  l.foldl (fun acc c => 10 * acc + charToDigit c) 0

/-- Parse a rendered balance back into (whole part, fraction digits value,
fraction length): the text before the first dot, the text after it, and
the number of fraction digits. -/
def parseBack (s : String) : Nat × Nat × Nat :=
  let wholePart := s.data.takeWhile (fun c => c ≠ '.')
  let fracPart := (s.data.dropWhile (fun c => c ≠ '.')).tail
  (parseDecimal wholePart, parseDecimal fracPart, fracPart.length)

/-- The two market versions of the configuration (src/main.rs lines 50-55). -/
inductive CompoundVersion
  | V2
  | V3
deriving DecidableEq

/-- Model of the ethers `I256::as_u128` checked cast: it returns the value
as a `u128` when the value lies in the `u128` range `[0, 2 ^ 128)` and
panics otherwise.  A panic is modelled as `none`. -/
def i256AsU128 (v : Int) : Option Nat :=
  if 0 ≤ v ∧ v < 2 ^ 128 then some v.toNat else none

/-- Embedding of the reserves conversion in `check_liquidity_v3`
(src/main.rs lines 256-261): a non-negative signed reserves value is cast
with `as_u128` into the unsigned snapshot field, a negative one is
replaced by zero. -/
def reservesToU256 (reservesI256 : Int) : Option Nat :=
  if 0 ≤ reservesI256 then i256AsU128 reservesI256
  else some 0

/-- The values reported by the Comet market contract and the base token
contract during one V3 snapshot read. -/
structure CometEnv where
  baseTokenAddr : String
  contractBalance : Nat
  totalSupply : Nat
  totalBorrow : Nat
  reservesI256 : Int
  utilization : Nat
deriving DecidableEq

/-- Embedding of `check_liquidity_v3` (src/main.rs lines 232-297) net of
logging: from the contract-reported values it returns the tuple
(available_liquidity, total_borrow, reserves, symbol), where available
liquidity is the base-token balance held by the market contract, the
symbol is the configured market name defaulting to cUSDCv3, and `none`
models the panic of the unsigned reserves cast. -/
def check_liquidity_v3 (marketName : Option String) (env : CometEnv) : Option (Nat × Nat × Nat × String) :=
  match reservesToU256 env.reservesI256 with
  | none => none
  | some reserves =>
    some (env.contractBalance, env.totalBorrow, reserves, marketName.getD "cUSDCv3")

/-- Transport-level outcome of the outbound webhook POST performed by
`send_alert`: either the request fails at the network level, or an HTTP
response with some status code comes back. -/
inductive WebhookOutcome
  | transportError (msg : String)
  | response (status : Nat)
deriving DecidableEq

/-- Model of reqwest `StatusCode::is_success`: status in 200..=299. -/
def statusIsSuccess (status : Nat) : Bool :=
  decide (200 ≤ status ∧ status < 300)

/-- Snapshot tuple produced by a successful liquidity read, as consumed by
the monitor loop (src/main.rs line 515). -/
structure LiquiditySnapshot where
  available_liquidity : Nat
  total_borrows : Nat
  total_reserves : Nat
  symbol : String
deriving DecidableEq

/-- The alert record of src/main.rs lines 141-151, with U256 fields
already rendered to decimal strings as in lines 522-534. -/
structure LiquidityAlert where
  market_address : String
  market_symbol : String
  available_liquidity : String
  total_borrows : String
  total_reserves : String
  threshold : String
  timestamp : Int
  message : String
deriving DecidableEq

/-- The configuration fields of `Config` that the monitor loop body
consults (the parsed threshold is carried separately, as in
`CompoundMonitor`). -/
structure MonitorConfig where
  market_address : String
  notification_enabled : Option Bool
deriving DecidableEq

/-- `config.notification_enabled.unwrap_or(true)` (src/main.rs line 537). -/
def notificationEnabled (cfg : MonitorConfig) : Bool :=
  cfg.notification_enabled.getD true

/-- Embedding of the `LiquidityAlert` construction of src/main.rs lines
522-534, from the snapshot of the current tick. -/
def buildAlert (cfg : MonitorConfig) (threshold : Nat) (snap : LiquiditySnapshot) (now : Int) : LiquidityAlert :=
  ⟨cfg.market_address, snap.symbol,
    natToString snap.available_liquidity,
    natToString snap.total_borrows,
    natToString snap.total_reserves,
    natToString threshold, now,
    "Available liquidity (" ++ natToString snap.available_liquidity ++
      ") is below threshold (" ++ natToString threshold ++ ")"⟩

/-- Embedding of `send_alert` (src/main.rs lines 299-316): a network-level
failure of the POST is propagated as an error (with the context string of
line 307); any HTTP response, success status or not, yields Ok, the
non-success case being only a logged warning. -/
def send_alert (alert : LiquidityAlert) (outcome : WebhookOutcome) : Except String Unit :=
  match outcome, alert with
  | WebhookOutcome.transportError msg, _ =>
    Except.error ("Failed to send webhook request: " ++ msg)
  | WebhookOutcome.response _, _ => Except.ok ()

/-- One tick of the monitor loop body (src/main.rs lines 511-550), net of
logging and the interval wait: from the result of the snapshot read and
the current time, the list of alerts handed to `send_alert` on that tick,
in order. -/
def tickAlertsSent (cfg : MonitorConfig) (threshold : Nat) (readResult : Except String LiquiditySnapshot) (now : Int) : List LiquidityAlert :=
  match readResult with
  | Except.error _ => []
  | Except.ok snap =>
    if snap.available_liquidity < threshold then
      if notificationEnabled cfg then [buildAlert cfg threshold snap now] else []
    else []

/-- The maximum representable U256 value (`U256::MAX`). -/
def U256MAX : Nat := 2 ^ 256 - 1

/-- The on-chain interactions performed by the transaction paths. -/
inductive NetCall
  | baseTokenRead (market : String)
  | allowanceRead (owner spender : String)
  | approveTx (spender : String) (amount : Nat)
  | awaitConfirm
  | supplyTx (asset : String) (amount : Nat)
  | withdrawTx (asset : String) (amount : Nat)
deriving DecidableEq

/-- The chain state consulted by `supply_v3`: the signer address derived
from the private key, the base token address reported by the market, and
the current allowance granted by the signer to the market contract. -/
structure ChainEnv where
  walletAddr : String
  baseTokenAddr : String
  allowance : Nat
deriving DecidableEq

/-- Embedding of `supply_v3` (src/main.rs lines 318-358) as the ordered
list of on-chain interactions it performs on the path where every step
succeeds: base token resolution, allowance read, a conditional approval
for `U256::MAX` awaited to confirmation, then the supply transaction
awaited to confirmation. -/
def supply_v3_trace (marketAddress : String) (env : ChainEnv) (amount : Nat) : List NetCall :=
  [NetCall.baseTokenRead marketAddress, NetCall.allowanceRead env.walletAddr marketAddress] ++
    (if env.allowance < amount then
      [NetCall.approveTx marketAddress U256MAX, NetCall.awaitConfirm]
    else []) ++
    [NetCall.supplyTx env.baseTokenAddr amount, NetCall.awaitConfirm]

/-- Embedding of `withdraw_v3` (src/main.rs lines 360-388) as the ordered
list of on-chain interactions it performs on the path where every step
succeeds: base token resolution, then the withdraw transaction awaited to
confirmation. -/
def withdraw_v3_trace (marketAddress : String) (env : ChainEnv) (amount : Nat) : List NetCall :=
  [NetCall.baseTokenRead marketAddress, NetCall.withdrawTx env.baseTokenAddr amount,
    NetCall.awaitConfirm]

/-- Error kinds of the Supply and Withdraw arms of `main`. -/
inductive MainError
  | invalidAmount
  | configError (msg : String)
  | missingKey
deriving DecidableEq

/-- Model of `U256::from_dec_str`: accepts a non-empty all-digit decimal
string whose value fits in 256 bits. -/
def parseDecNat (s : String) : Option Nat :=
  if s.data = [] then none
  else if s.data.all Char.isDigit then
    if parseDecimal s.data < 2 ^ 256 then some (parseDecimal s.data) else none
  else none

/-- The configuration-error message of src/main.rs lines 576 and 591. -/
def v2ConfigErrorMsg : String :=
  "Supply/withdraw is only supported for Compound V3. Set compound_version v3 in config.json"

/-- Credential resolution of src/main.rs lines 580-582: the explicit CLI
key if present, else the configuration value. -/
def resolveKey (cliKey cfgKey : Option String) : Option String :=
  match cliKey with
  | some k => some k
  | none => cfgKey

/-- Embedding of the Supply arm of `main` (src/main.rs lines 571-585):
parse the amount, reject any configured version other than V3 with a
configuration error, resolve the signing key, then run `supply_v3`.  The
first component is the list of network calls attempted. -/
def supplyCommand (version : CompoundVersion) (marketAddress : String) (cfgKey : Option String) (env : ChainEnv) (amountStr : String) (cliKey : Option String) : List NetCall × Except MainError Unit :=
  match parseDecNat amountStr with
  | none => ([], Except.error MainError.invalidAmount)
  | some amount =>
    if version ≠ CompoundVersion.V3 then
      ([], Except.error (MainError.configError v2ConfigErrorMsg))
    else
      match resolveKey cliKey cfgKey with
      | none => ([], Except.error MainError.missingKey)
      | some _ => (supply_v3_trace marketAddress env amount, Except.ok ())

/-- Embedding of the Withdraw arm of `main` (src/main.rs lines 586-600),
structured exactly like the Supply arm but running `withdraw_v3`. -/
def withdrawCommand (version : CompoundVersion) (marketAddress : String) (cfgKey : Option String) (env : ChainEnv) (amountStr : String) (cliKey : Option String) : List NetCall × Except MainError Unit :=
  match parseDecNat amountStr with
  | none => ([], Except.error MainError.invalidAmount)
  | some amount =>
    if version ≠ CompoundVersion.V3 then
      ([], Except.error (MainError.configError v2ConfigErrorMsg))
    else
      match resolveKey cliKey cfgKey with
      | none => ([], Except.error MainError.missingKey)
      | some _ => (withdraw_v3_trace marketAddress env amount, Except.ok ())

/-- An address-list entry loaded from monitor_address.json (src/main.rs
lines 116-120). -/
structure MonitorAddress where
  name : String
  address : String
deriving DecidableEq

/-- The for loop of `check_balance_batch` (src/main.rs lines 441-450):
attempt the single-address lookup for each entry in order; the Err arm
logs the failure and continues with the next entry.  Each entry is paired
with whether its lookup produced a report. -/
def batchLoop (check : MonitorAddress → Except String Unit) : List MonitorAddress → List (MonitorAddress × Bool)
  | [] => []
  | e :: rest =>
    match check e with
    | Except.ok _ => (e, true) :: batchLoop check rest
    | Except.error _ => (e, false) :: batchLoop check rest

/-- Embedding of `check_balance_batch` (src/main.rs lines 430-453) over
the loaded address list, with the per-entry `check_balance` call
abstracted as the function `check`: the empty list returns Ok at once,
otherwise every entry is attempted in order and the batch returns Ok. -/
def check_balance_batch (check : MonitorAddress → Except String Unit) (entries : List MonitorAddress) : List (MonitorAddress × Bool) × Except String Unit :=
  if entries.isEmpty then ([], Except.ok ())
  else (batchLoop check entries, Except.ok ())

theorem digitsRevGo_eq_digits : ∀ fuel n : Nat, n ≤ fuel → digitsRevGo fuel n = Nat.digits 10 n := by
  intro fuel
  induction fuel with
  | zero =>
    intro n hn
    interval_cases n
    simp [digitsRevGo]
  | succ f ih =>
    intro n hn
    match n with
    | 0 => simp [digitsRevGo]
    | m + 1 =>
      rw [Nat.digits_def' (b := 10) (by norm_num) (Nat.succ_pos m)]
      simp only [digitsRevGo]
      congr 1
      have h1 : (m + 1) / 10 < m + 1 := Nat.div_lt_self (Nat.succ_pos m) (by norm_num)
      exact ih _ (by omega)

theorem natDigitsLE_eq_digits (n : Nat) : natDigitsLE n = Nat.digits 10 n :=
  digitsRevGo_eq_digits n n le_rfl

theorem parseDecimal_foldl_general (l : List Char) (acc : Nat) :
    l.foldl (fun a c => 10 * a + charToDigit c) acc
      = acc * 10 ^ l.length + parseDecimal l := by
  induction l generalizing acc with
  | nil => simp [parseDecimal]
  | cons c t ih =>
    simp only [parseDecimal, List.foldl_cons, List.length_cons]
    rw [ih, ih]
    ring

theorem parseDecimal_append (a b : List Char) :
    parseDecimal (a ++ b) = parseDecimal a * 10 ^ b.length + parseDecimal b := by
  simp only [parseDecimal, List.foldl_append]
  rw [parseDecimal_foldl_general]
  rfl

theorem charToDigit_digitChar (d : Nat) (hd : d < 10) :
    charToDigit (Nat.digitChar d) = d := by
  interval_cases d <;> decide

theorem digitChar_isDigit (d : Nat) (hd : d < 10) : (Nat.digitChar d).isDigit = true := by
  interval_cases d <;> decide

theorem digitChar_eq_zero_char_iff (d : Nat) (hd : d < 10) :
    Nat.digitChar d = '0' ↔ d = 0 := by
  interval_cases d <;> decide

theorem parseDecimal_reverse_map_digitChar (L : List Nat) (hL : ∀ d ∈ L, d < 10) :
    parseDecimal (L.reverse.map Nat.digitChar) = Nat.ofDigits 10 L := by
  induction L with
  | nil => simp [parseDecimal]
  | cons d t ih =>
    have hd : d < 10 := hL d (List.mem_cons_self d t)
    have ht : ∀ x ∈ t, x < 10 := fun x hx => hL x (List.mem_cons_of_mem d hx)
    simp only [List.reverse_cons, List.map_append, List.map_cons, List.map_nil]
    rw [parseDecimal_append, ih ht]
    have h1 : parseDecimal [Nat.digitChar d] = d := by
      simp [parseDecimal, charToDigit_digitChar d hd]
    rw [h1]
    simp [Nat.ofDigits_cons]
    ring

theorem parseDecimal_natToString (n : Nat) : parseDecimal (natToString n).data = n := by
  by_cases h : n = 0
  · subst h
    decide
  · show parseDecimal (natToString n).data = n
    rw [natToString, if_neg h]
    show parseDecimal ((natDigitsLE n).reverse.map Nat.digitChar) = n
    rw [natDigitsLE_eq_digits]
    rw [parseDecimal_reverse_map_digitChar _ (fun d hd => Nat.digits_lt_base (by norm_num) hd)]
    exact Nat.ofDigits_digits 10 n

theorem natToString_chars_isDigit (n : Nat) :
    ∀ c ∈ (natToString n).data, c.isDigit = true := by
  by_cases h : n = 0
  · subst h
    decide
  · rw [natToString, if_neg h]
    intro c hc
    have hc' : c ∈ (natDigitsLE n).reverse.map Nat.digitChar := hc
    rcases List.mem_map.1 hc' with ⟨d, hd, rfl⟩
    have : d ∈ Nat.digits 10 n := by
      rw [natDigitsLE_eq_digits] at hd
      exact List.mem_reverse.1 hd
    exact digitChar_isDigit d (Nat.digits_lt_base (by norm_num) this)

theorem natToString_length (n : Nat) (h : n ≠ 0) :
    (natToString n).length = (Nat.digits 10 n).length := by
  rw [natToString, if_neg h]
  show ((natDigitsLE n).reverse.map Nat.digitChar).length = (Nat.digits 10 n).length
  rw [natDigitsLE_eq_digits]
  simp

theorem natToString_pow_length (k : Nat) : (natToString (10 ^ k)).length = k + 1 := by
  have h10 : (10 : Nat) ^ k ≠ 0 := Nat.pos_iff_ne_zero.mp (Nat.pos_pow_of_pos k (by norm_num))
  rw [natToString_length _ h10, Nat.digits_len 10 _ (by norm_num) h10, Nat.log_pow (by norm_num)]

theorem digits_length_le_of_lt (r k : Nat) (hr : r ≠ 0) (h : r < 10 ^ k) :
    (Nat.digits 10 r).length ≤ k := by
  rw [Nat.digits_len 10 r (by norm_num) hr]
  have := Nat.log_lt_of_lt_pow hr h
  omega

theorem takeWhile_append_cons {α : Type} (p : α → Bool) (A : List α) (c : α) (B : List α)
    (hA : ∀ a ∈ A, p a = true) (hc : p c = false) :
    List.takeWhile p (A ++ c :: B) = A := by
  induction A with
  | nil => simp [List.takeWhile_cons, hc]
  | cons a t ih =>
    have ha : p a = true := hA a (List.mem_cons_self a t)
    simp only [List.cons_append, List.takeWhile_cons, ha, if_true]
    rw [ih (fun x hx => hA x (List.mem_cons_of_mem a hx))]

theorem dropWhile_append_cons {α : Type} (p : α → Bool) (A : List α) (c : α) (B : List α)
    (hA : ∀ a ∈ A, p a = true) (hc : p c = false) :
    List.dropWhile p (A ++ c :: B) = c :: B := by
  induction A with
  | nil => simp [List.dropWhile_cons, hc]
  | cons a t ih =>
    have ha : p a = true := hA a (List.mem_cons_self a t)
    simp only [List.cons_append, List.dropWhile_cons, ha, if_true]
    exact ih (fun x hx => hA x (List.mem_cons_of_mem a hx))

theorem dropWhile_append_of_ne_nil {α : Type} (p : α → Bool) (A B : List α)
    (h : List.dropWhile p A ≠ []) :
    List.dropWhile p (A ++ B) = List.dropWhile p A ++ B := by
  induction A with
  | nil => simp [List.dropWhile] at h
  | cons a t ih =>
    cases hp : p a with
    | true =>
      simp only [List.dropWhile_cons, hp, if_true] at h ⊢
      simp only [List.cons_append, List.dropWhile_cons, hp, if_true]
      exact ih h
    | false =>
      simp only [List.cons_append, List.dropWhile_cons, hp]
      simp

theorem dropWhile_zero_map_digitChar (L : List Nat) (hL : ∀ d ∈ L, d < 10) :
    List.dropWhile (fun c => c = '0') (L.map Nat.digitChar)
      = (List.dropWhile (fun d => d = 0) L).map Nat.digitChar := by
  induction L with
  | nil => rfl
  | cons d t ih =>
    have hd : d < 10 := hL d (List.mem_cons_self d t)
    have ht : ∀ x ∈ t, x < 10 := fun x hx => hL x (List.mem_cons_of_mem d hx)
    by_cases h0 : d = 0
    · subst h0
      have hz : Nat.digitChar 0 = '0' := rfl
      simp only [List.map_cons, List.dropWhile_cons, hz]
      norm_num [ih ht]
    · have hne : Nat.digitChar d ≠ '0' := fun hc => h0 ((digitChar_eq_zero_char_iff d hd).1 hc)
      simp only [List.map_cons, List.dropWhile_cons]
      simp [hne, h0]

theorem takeWhile_zero_eq_replicate (L : List Nat) :
    List.takeWhile (fun d => d = 0) L
      = List.replicate (List.takeWhile (fun d => d = 0) L).length 0 := by
  apply List.eq_replicate_of_mem
  intro x hx
  have := List.mem_takeWhile_imp hx
  simpa using this

theorem ofDigits_replicate_zero (t : Nat) : Nat.ofDigits 10 (List.replicate t 0) = 0 := by
  induction t with
  | zero => rfl
  | succ n ih => simp [List.replicate_succ, Nat.ofDigits_cons, ih]

theorem parseDecimal_replicate_zero (t : Nat) : parseDecimal (List.replicate t '0') = 0 := by
  induction t with
  | zero => rfl
  | succ n ih =>
    simp only [List.replicate_succ, parseDecimal, List.foldl_cons]
    have : (10 * 0 + charToDigit '0') = 0 := by decide
    rw [this]
    exact ih

theorem dropWhile_zero_digits_ne_nil (r : Nat) (hr : r ≠ 0) :
    List.dropWhile (fun d => d = 0) (Nat.digits 10 r) ≠ [] := by
  intro hnil
  have hall : ∀ x ∈ Nat.digits 10 r, x = 0 := by
    intro x hx
    have := List.dropWhile_eq_nil_iff.1 hnil x hx
    simpa using this
  have hne : Nat.digits 10 r ≠ [] := Nat.digits_ne_nil_iff_ne_zero.mpr hr
  have hlast := Nat.getLast_digit_ne_zero 10 hr
  exact hlast (hall _ (List.getLast_mem hne))

theorem digits_eq_replicate_append_dropWhile (r : Nat) :
    Nat.digits 10 r
      = List.replicate (List.takeWhile (fun d => d = 0) (Nat.digits 10 r)).length 0
          ++ List.dropWhile (fun d => d = 0) (Nat.digits 10 r) := by
  conv_lhs => rw [← List.takeWhile_append_dropWhile (p := fun d => decide (d = 0)) (l := Nat.digits 10 r)]
  rw [← takeWhile_zero_eq_replicate]

theorem isDigit_ne_dot (c : Char) (h : c.isDigit = true) : c ≠ '.' := by
  intro hc
  subst hc
  exact absurd h (by decide)

theorem parseBack_no_dot (s : String) (h : ∀ c ∈ s.data, c.isDigit = true) :
    parseBack s = (parseDecimal s.data, 0, 0) := by
  have h1 : List.takeWhile (fun c => c ≠ '.') s.data = s.data :=
    List.takeWhile_eq_self_iff.mpr (fun c hc => by simpa using isDigit_ne_dot c (h c hc))
  have h2 : List.dropWhile (fun c => c ≠ '.') s.data = [] :=
    List.dropWhile_eq_nil_iff.mpr (fun c hc => by simpa using isDigit_ne_dot c (h c hc))
  show (parseDecimal (List.takeWhile (fun c => c ≠ '.') s.data),
    parseDecimal (List.dropWhile (fun c => c ≠ '.') s.data).tail,
    (List.dropWhile (fun c => c ≠ '.') s.data).tail.length) = _
  rw [h1, h2]
  rfl

theorem trimmed_pad_data (r k : Nat) (hr : r ≠ 0) :
    (trimTrailingZeros (padZeros k (natToString r))).data
      = List.replicate (k - (Nat.digits 10 r).length) '0'
          ++ ((List.dropWhile (fun d => d = 0) (Nat.digits 10 r)).map Nat.digitChar).reverse := by
  have hLlt : ∀ d ∈ Nat.digits 10 r, d < 10 :=
    fun d hd => Nat.digits_lt_base (by norm_num) hd
  have hrstr : (natToString r).data = (Nat.digits 10 r).reverse.map Nat.digitChar := by
    rw [natToString, if_neg hr]
    show (natDigitsLE r).reverse.map Nat.digitChar = _
    rw [natDigitsLE_eq_digits]
  have hrlen : (natToString r).length = (Nat.digits 10 r).length := natToString_length r hr
  have hpad : (padZeros k (natToString r)).data
      = List.replicate (k - (Nat.digits 10 r).length) '0'
          ++ (Nat.digits 10 r).reverse.map Nat.digitChar := by
    show List.replicate (k - (natToString r).length) '0' ++ (natToString r).data = _
    rw [hrstr, hrlen]
  have hd1 : List.dropWhile (fun c => c = '0') ((Nat.digits 10 r).map Nat.digitChar)
      = (List.dropWhile (fun d => d = 0) (Nat.digits 10 r)).map Nat.digitChar :=
    dropWhile_zero_map_digitChar _ hLlt
  have hd2 : (List.dropWhile (fun d => d = 0) (Nat.digits 10 r)).map Nat.digitChar ≠ [] := by
    simpa [List.map_eq_nil_iff] using dropWhile_zero_digits_ne_nil r hr
  show (((padZeros k (natToString r)).data.reverse.dropWhile (fun c => c = '0')).reverse) = _
  rw [hpad, List.reverse_append, List.reverse_replicate, List.map_reverse,
    List.reverse_reverse]
  rw [dropWhile_append_of_ne_nil _ _ _ (hd1 ▸ hd2), hd1, List.reverse_append,
    List.reverse_replicate]

theorem parseBack_whole_frac (w r k : Nat) (hr : r ≠ 0) (hrk : r < 10 ^ k) :
    (parseBack (natToString w ++ "." ++ trimTrailingZeros (padZeros k (natToString r)))).2.2 ≤ k ∧
    (parseBack (natToString w ++ "." ++ trimTrailingZeros (padZeros k (natToString r)))).1 = w ∧
    (parseBack (natToString w ++ "." ++ trimTrailingZeros (padZeros k (natToString r)))).2.1
        * 10 ^ (k - (parseBack (natToString w ++ "."
            ++ trimTrailingZeros (padZeros k (natToString r)))).2.2)
      = r := by
  have hLlen : (Nat.digits 10 r).length ≤ k := digits_length_le_of_lt r k hr hrk
  have hL2lt : ∀ d ∈ List.dropWhile (fun d => d = 0) (Nat.digits 10 r), d < 10 :=
    fun d hd =>
      Nat.digits_lt_base (by norm_num) ((List.dropWhile_sublist _).subset hd)
  have hlen : (List.takeWhile (fun d => d = 0) (Nat.digits 10 r)).length
      + (List.dropWhile (fun d => d = 0) (Nat.digits 10 r)).length
      = (Nat.digits 10 r).length := by
    conv_rhs => rw [← List.takeWhile_append_dropWhile (p := fun d => decide (d = 0))
      (l := Nat.digits 10 r)]
    rw [List.length_append]
  have hr_val : r = 10 ^ (List.takeWhile (fun d => d = 0) (Nat.digits 10 r)).length
      * Nat.ofDigits 10 (List.dropWhile (fun d => d = 0) (Nat.digits 10 r)) := by
    have h0 : (Nat.ofDigits 10 (Nat.digits 10 r) : Nat) = r := Nat.ofDigits_digits 10 r
    rw [digits_eq_replicate_append_dropWhile r, Nat.ofDigits_append,
      ofDigits_replicate_zero, List.length_replicate] at h0
    simpa using h0.symm
  have hdata : (natToString w ++ "." ++ trimTrailingZeros (padZeros k (natToString r))).data
      = (natToString w).data
          ++ '.' :: (List.replicate (k - (Nat.digits 10 r).length) '0'
            ++ ((List.dropWhile (fun d => d = 0) (Nat.digits 10 r)).map Nat.digitChar).reverse) := by
    rw [String.data_append, String.data_append, trimmed_pad_data r k hr]
    simp
  have hdigitsW : ∀ a ∈ (natToString w).data, (fun c => decide (c ≠ '.')) a = true :=
    fun a ha => by simpa using isDigit_ne_dot a (natToString_chars_isDigit w a ha)
  have hdot : (fun c => decide (c ≠ '.')) '.' = false := by decide
  have hpb : parseBack (natToString w ++ "." ++ trimTrailingZeros (padZeros k (natToString r)))
      = (w, Nat.ofDigits 10 (List.dropWhile (fun d => d = 0) (Nat.digits 10 r)),
          (k - (Nat.digits 10 r).length)
            + (List.dropWhile (fun d => d = 0) (Nat.digits 10 r)).length) := by
    show ((parseDecimal (List.takeWhile (fun c => c ≠ '.')
        (natToString w ++ "." ++ trimTrailingZeros (padZeros k (natToString r))).data), _, _)
          : Nat × Nat × Nat) = _
    rw [hdata, takeWhile_append_cons _ _ _ _ hdigitsW hdot,
      dropWhile_append_cons _ _ _ _ hdigitsW hdot]
    simp only [List.tail_cons]
    rw [parseDecimal_natToString w, parseDecimal_append, parseDecimal_replicate_zero,
      ← List.map_reverse,
      parseDecimal_reverse_map_digitChar (List.dropWhile (fun d => d = 0) (Nat.digits 10 r))
        hL2lt]
    simp
  rw [hpb]
  refine ⟨by simp; omega, rfl, ?_⟩
  show Nat.ofDigits 10 (List.dropWhile (fun d => d = 0) (Nat.digits 10 r))
      * 10 ^ (k - ((k - (Nat.digits 10 r).length)
        + (List.dropWhile (fun d => d = 0) (Nat.digits 10 r)).length)) = r
  have hexp : k - ((k - (Nat.digits 10 r).length)
      + (List.dropWhile (fun d => d = 0) (Nat.digits 10 r)).length)
      = (List.takeWhile (fun d => d = 0) (Nat.digits 10 r)).length := by omega
  rw [hexp, Nat.mul_comm]
  exact hr_val.symm

theorem format_balance_pow10_exact (R k : Nat) :
    (parseBack (format_balance R (10 ^ k))).2.2 ≤ k ∧
    R = (parseBack (format_balance R (10 ^ k))).1 * 10 ^ k
        + (parseBack (format_balance R (10 ^ k))).2.1
          * 10 ^ (k - (parseBack (format_balance R (10 ^ k))).2.2) := by
  have hD : (10 : Nat) ^ k ≠ 0 := Nat.pos_iff_ne_zero.mp (Nat.pos_pow_of_pos k (by norm_num))
  have hdm : 10 ^ k * (R / 10 ^ k) + R % 10 ^ k = R := Nat.div_add_mod R (10 ^ k)
  by_cases hrem : R % 10 ^ k = 0
  · have hfb : format_balance R (10 ^ k) = natToString (R / 10 ^ k) := by
      simp only [format_balance]
      rw [if_neg hD, if_pos hrem]
    rw [hfb, parseBack_no_dot _ (natToString_chars_isDigit _)]
    refine ⟨Nat.zero_le k, ?_⟩
    show R = parseDecimal (natToString (R / 10 ^ k)).data * 10 ^ k + 0 * 10 ^ (k - 0)
    rw [parseDecimal_natToString, Nat.zero_mul, Nat.add_zero,
      Nat.mul_comm (R / 10 ^ k) (10 ^ k)]
    omega
  · have hrlt : R % 10 ^ k < 10 ^ k := Nat.mod_lt _ (Nat.pos_pow_of_pos k (by norm_num))
    have hfb : format_balance R (10 ^ k)
        = natToString (R / 10 ^ k) ++ "."
          ++ trimTrailingZeros (padZeros k (natToString (R % 10 ^ k))) := by
      simp only [format_balance]
      rw [if_neg hD, if_neg hrem]
      have hw : (natToString (10 ^ k)).length - 1 = k := by
        rw [natToString_pow_length]
        omega
      rw [hw]
      have hne : trimTrailingZeros (padZeros k (natToString (R % 10 ^ k))) ≠ "" := by
        intro hempty
        have hdat : (trimTrailingZeros (padZeros k (natToString (R % 10 ^ k)))).data = [] := by
          rw [hempty]
        rw [trimmed_pad_data _ k hrem] at hdat
        rcases List.append_eq_nil.1 hdat with ⟨h1, h2⟩
        rw [List.reverse_eq_nil_iff, List.map_eq_nil_iff] at h2
        exact dropWhile_zero_digits_ne_nil _ hrem h2
      rw [if_neg hne]
    obtain ⟨h1, h2, h3⟩ := parseBack_whole_frac (R / 10 ^ k) (R % 10 ^ k) k hrem hrlt
    rw [hfb]
    refine ⟨h1, ?_⟩
    rw [h2, h3, Nat.mul_comm (R / 10 ^ k) (10 ^ k)]
    omega

theorem trimTrailingZeros_subset (s : String) (c : Char)
    (hc : c ∈ (trimTrailingZeros s).data) : c ∈ s.data := by
  have h1 : c ∈ (s.data.reverse.dropWhile (fun c => c = '0')).reverse := hc
  rw [List.mem_reverse] at h1
  have h2 := (List.dropWhile_sublist _).subset h1
  exact List.mem_reverse.1 h2

theorem padZeros_chars (w : Nat) (s : String) (c : Char) (hc : c ∈ (padZeros w s).data) :
    c = '0' ∨ c ∈ s.data := by
  have h1 : c ∈ List.replicate (w - s.length) '0' ++ s.data := hc
  rcases List.mem_append.1 h1 with h | h
  · exact Or.inl (List.eq_of_mem_replicate h)
  · exact Or.inr h

theorem format_balance_chars (R D : Nat) :
    ∀ c ∈ (format_balance R D).data, c.isDigit = true ∨ c = '.' := by
  intro c hc
  by_cases hD : D = 0
  · refine Or.inl (natToString_chars_isDigit R c ?_)
    simp only [format_balance] at hc
    rw [if_pos hD] at hc
    exact hc
  · by_cases hrem : R % D = 0
    · refine Or.inl (natToString_chars_isDigit (R / D) c ?_)
      simp only [format_balance] at hc
      rw [if_neg hD, if_pos hrem] at hc
      exact hc
    · simp only [format_balance] at hc
      rw [if_neg hD, if_neg hrem] at hc
      by_cases hne : trimTrailingZeros
          (padZeros ((natToString D).length - 1) (natToString (R % D))) = ""
      · rw [if_pos hne] at hc
        exact Or.inl (natToString_chars_isDigit (R / D) c hc)
      · rw [if_neg hne] at hc
        rw [String.data_append, String.data_append] at hc
        rcases List.mem_append.1 hc with h | h
        · rcases List.mem_append.1 h with h' | h'
          · exact Or.inl (natToString_chars_isDigit (R / D) c h')
          · refine Or.inr ?_
            have : c ∈ ['.'] := h'
            simpa using this
        · rcases padZeros_chars _ _ c (trimTrailingZeros_subset _ c h) with h' | h'
          · exact Or.inl (by rw [h']; decide)
          · exact Or.inl (natToString_chars_isDigit (R % D) c h')

theorem format_balance_eq_spec (raw divisor : Nat) :
    format_balance raw divisor = format_balance_spec raw divisor := by
  by_cases hd : divisor = 0
  · simp [format_balance, format_balance_spec, hd]
  · have hw : (natToString divisor).length = digitCount divisor := natToString_length divisor hd
    simp only [format_balance, format_balance_spec]
    rw [if_neg hd, if_neg hd, hw]

/-- Claim C1 counterexample: the contract can report the non-negative
int256 reserves value 2 ^ 128, and on that read the checked u128 cast in
the conversion panics, so no snapshot with that reserves value (nor any
snapshot at all) is returned, contradicting the claim that every
non-negative reported value is returned unchanged. -/
theorem claim_c1_counterexample :
    0 ≤ (2 ^ 128 : Int) ∧
    reservesToU256 (2 ^ 128) = none ∧
    check_liquidity_v3 none ⟨"0xbase", 5, 0, 0, 2 ^ 128, 0⟩ = none := by
  have hres : reservesToU256 ((2 : Int) ^ 128) = none := by
    rw [reservesToU256, if_pos (by norm_num), i256AsU128, if_neg (by norm_num)]
  refine ⟨by norm_num, hres, ?_⟩
  dsimp only [check_liquidity_v3]
  rw [hres]

/-- Claim C1 (amended): on a V3 read, a negative reported reserves value
surfaces as reserves 0 in the snapshot and a non-negative reported value
below 2 ^ 128 is returned unchanged; a non-negative value at or above
2 ^ 128 aborts the read with a panic of the checked u128 cast, so no
snapshot is returned on such a read. -/
theorem claim_c1_reserves_floored (name : Option String) (env : CometEnv) :
    (env.reservesI256 < 0 →
      check_liquidity_v3 name env
        = some (env.contractBalance, env.totalBorrow, 0, name.getD "cUSDCv3")) ∧
    (0 ≤ env.reservesI256 → env.reservesI256 < 2 ^ 128 →
      check_liquidity_v3 name env
        = some (env.contractBalance, env.totalBorrow, env.reservesI256.toNat,
            name.getD "cUSDCv3")) ∧
    (2 ^ 128 ≤ env.reservesI256 → check_liquidity_v3 name env = none) := by
  refine ⟨?_, ?_, ?_⟩
  · intro h
    have hr : reservesToU256 env.reservesI256 = some 0 := by
      rw [reservesToU256, if_neg (not_le.mpr h)]
    simp [check_liquidity_v3, hr]
  · intro h1 h2
    have hr : reservesToU256 env.reservesI256 = some env.reservesI256.toNat := by
      rw [reservesToU256, if_pos h1, i256AsU128, if_pos ⟨h1, h2⟩]
    simp [check_liquidity_v3, hr]
  · intro h
    have h0 : (0 : Int) ≤ env.reservesI256 := le_trans (by norm_num) h
    have hr : reservesToU256 env.reservesI256 = none := by
      rw [reservesToU256, if_pos h0, i256AsU128, if_neg (fun hc => (not_lt.mpr h) hc.2)]
    simp [check_liquidity_v3, hr]

/-- Claim C1 witness: the conversion at the reported values -100 and 7. -/
theorem claim_c1_reserves_floored_witness :
    check_liquidity_v3 none ⟨"0xbase", 5, 9, 4, -100, 0⟩ = some (5, 4, 0, "cUSDCv3") ∧
    check_liquidity_v3 none ⟨"0xbase", 5, 9, 4, 7, 0⟩ = some (5, 4, 7, "cUSDCv3") :=
  ⟨(claim_c1_reserves_floored none ⟨"0xbase", 5, 9, 4, -100, 0⟩).1 (by norm_num),
    (claim_c1_reserves_floored none ⟨"0xbase", 5, 9, 4, 7, 0⟩).2.1 (by norm_num) (by norm_num)⟩

/-- Claim C10 counterexample: at the in-range int256 input 2 ^ 128 the
conversion is not total: the checked u128 cast panics, and the input value
is not returned. -/
theorem claim_c10_counterexample :
    (2 ^ 128 : Int) < 2 ^ 255 ∧ 0 ≤ (2 ^ 128 : Int) ∧
    i256AsU128 (2 ^ 128) = none ∧
    reservesToU256 (2 ^ 128) ≠ some ((2 : Int) ^ 128).toNat := by
  have h1 : i256AsU128 ((2 : Int) ^ 128) = none := by
    rw [i256AsU128, if_neg (by norm_num)]
  have h2 : reservesToU256 ((2 : Int) ^ 128) = none := by
    rw [reservesToU256, if_pos (by norm_num)]
    exact h1
  refine ⟨by norm_num, by norm_num, h1, ?_⟩
  rw [h2]
  intro h
  exact Option.noConfusion h

/-- Claim C10 (amended): over the int256 range, the conversion of the
signed reserves value into the unsigned snapshot field never panics and
returns the input itself for non-negative inputs below 2 ^ 128, and
returns 0 for negative inputs; it panics exactly for (non-negative)
inputs at or above 2 ^ 128, where the checked u128 cast overflows. -/
theorem claim_c10_conversion_totality (v : Int) :
    (-(2 ^ 255) ≤ v → v < 2 ^ 255 → (reservesToU256 v = none ↔ 2 ^ 128 ≤ v)) ∧
    (0 ≤ v → v < 2 ^ 128 → reservesToU256 v = some v.toNat) ∧
    (v < 0 → reservesToU256 v = some 0) := by
  have hneg : v < 0 → reservesToU256 v = some 0 := by
    intro h
    rw [reservesToU256, if_neg (not_le.mpr h)]
  have hsmall : 0 ≤ v → v < 2 ^ 128 → reservesToU256 v = some v.toNat := by
    intro h1 h2
    rw [reservesToU256, if_pos h1, i256AsU128, if_pos ⟨h1, h2⟩]
  refine ⟨?_, hsmall, hneg⟩
  intro hlo hhi
  constructor
  · intro hnone
    by_contra hlt
    push_neg at hlt
    rcases lt_or_le v 0 with hv | hv
    · rw [hneg hv] at hnone
      exact Option.noConfusion hnone
    · rw [hsmall hv hlt] at hnone
      exact Option.noConfusion hnone
  · intro h
    have h0 : (0 : Int) ≤ v := le_trans (by norm_num) h
    rw [reservesToU256, if_pos h0, i256AsU128, if_neg (fun hc => (not_lt.mpr h) hc.2)]

/-- Claim C10 witness: the amended characterization evaluated at the
in-range inputs 2 ^ 128 (panic), 7 (identity) and -100 (floored). -/
theorem claim_c10_conversion_totality_witness :
    (reservesToU256 (2 ^ 128) = none ↔ (2 ^ 128 : Int) ≤ 2 ^ 128) ∧
    reservesToU256 7 = some 7 ∧
    reservesToU256 (-100) = some 0 :=
  ⟨(claim_c10_conversion_totality (2 ^ 128)).1 (by norm_num) (by norm_num),
    (claim_c10_conversion_totality 7).2.1 (by norm_num) (by norm_num),
    (claim_c10_conversion_totality (-100)).2.2 (by norm_num)⟩

/-- Claim C3: format_balance follows the specified algorithm for every
raw amount and divisor (divisor-zero guard returning the plain decimal
string, whole part only on remainder zero, otherwise the remainder as a
zero-padded fraction of width one less than the digit count of the
divisor with trailing zeros stripped and the empty-fraction fallback),
and the three documented examples hold. -/
theorem claim_c3_format_balance_algorithm :
    (∀ raw divisor : Nat, format_balance raw divisor = format_balance_spec raw divisor) ∧
    format_balance 1500000 1000000 = "1.5" ∧
    format_balance 2000000 1000000 = "2" ∧
    format_balance 0 1000000 = "0" :=
  ⟨format_balance_eq_spec, by decide, by decide, by decide⟩

/-- Claim C4 counterexample: the round-trip fails for the divisor 3 (not
a power of ten): format_balance 1 3 renders "0.1", whose parse-back value
in base units, scaled by 10 to the fraction length, is 0 * 3 * 10 + 1 * 3
= 3, while the true scaled value is 1 * 10 = 10; the error 7 exceeds 3,
one whole unit of the precision the one-digit fraction represents. -/
theorem claim_c4_counterexample :
    format_balance 1 3 = "0.1" ∧
    parseBack (format_balance 1 3) = (0, 1, 1) ∧
    1 * 10 ^ 1 - ((parseBack (format_balance 1 3)).1 * 3 * 10 ^ 1
      + (parseBack (format_balance 1 3)).2.1 * 3) > 3 :=
  ⟨by decide, by decide, by decide⟩

/-- Claim C4 (amended): the exact round-trip holds whenever the divisor
is a power of ten (as at every call site, where the divisor is 10 to the
token decimals): for every raw amount R and exponent k, parsing
format_balance R (10 ^ k) back as whole times 10 ^ k plus the fraction
times 10 ^ (k - length) recovers R exactly; format_balance R 0 is the
plain decimal string of R; and every output character is a decimal digit
or the dot, so no scientific notation occurs for any magnitude. -/
theorem claim_c4_roundtrip_amended :
    (∀ R k : Nat,
      (parseBack (format_balance R (10 ^ k))).2.2 ≤ k ∧
      R = (parseBack (format_balance R (10 ^ k))).1 * 10 ^ k
          + (parseBack (format_balance R (10 ^ k))).2.1
            * 10 ^ (k - (parseBack (format_balance R (10 ^ k))).2.2)) ∧
    (∀ R : Nat, format_balance R 0 = natToString R) ∧
    (∀ R D : Nat, ∀ c ∈ (format_balance R D).data, c.isDigit = true ∨ c = '.') :=
  ⟨format_balance_pow10_exact, fun _ => rfl, format_balance_chars⟩

/-- Claim C4 witness: the amended round-trip evaluated at R = 1500000 and
divisor 10 ^ 6, the zero-divisor case at 42, and the character property at
the digit 1 of the rendered "1.5". -/
theorem claim_c4_roundtrip_witness :
    ((parseBack (format_balance 1500000 (10 ^ 6))).2.2 ≤ 6 ∧
      1500000 = (parseBack (format_balance 1500000 (10 ^ 6))).1 * 10 ^ 6
        + (parseBack (format_balance 1500000 (10 ^ 6))).2.1
          * 10 ^ (6 - (parseBack (format_balance 1500000 (10 ^ 6))).2.2)) ∧
    format_balance 42 0 = natToString 42 ∧
    ('1'.isDigit = true ∨ '1' = '.') :=
  ⟨claim_c4_roundtrip_amended.1 1500000 6, claim_c4_roundtrip_amended.2.1 42,
    claim_c4_roundtrip_amended.2.2 1500000 1000000 '1' (by decide)⟩

/-- Claim C2: on a tick whose snapshot read succeeds, the loop body hands
send_alert exactly one alert, built from that snapshot, when available
liquidity is strictly below the threshold and notifications are enabled;
zero alerts when notifications are disabled despite the same breach; and
zero alerts when available liquidity is not below the threshold. -/
theorem claim_c2_tick_alert_dispatch (cfg : MonitorConfig) (threshold : Nat)
    (snap : LiquiditySnapshot) (now : Int) :
    (snap.available_liquidity < threshold → notificationEnabled cfg = true →
      tickAlertsSent cfg threshold (Except.ok snap) now
        = [buildAlert cfg threshold snap now]) ∧
    (snap.available_liquidity < threshold → notificationEnabled cfg = false →
      tickAlertsSent cfg threshold (Except.ok snap) now = []) ∧
    (¬ snap.available_liquidity < threshold →
      tickAlertsSent cfg threshold (Except.ok snap) now = []) := by
  refine ⟨?_, ?_, ?_⟩
  · intro h1 h2
    simp [tickAlertsSent, h1, h2]
  · intro h1 h2
    simp [tickAlertsSent, h1, h2]
  · intro h1
    simp [tickAlertsSent, h1]

/-- Claim C2 witness: a breaching snapshot with notifications enabled
sends the one built alert, the same snapshot with notifications disabled
sends nothing, and a non-breaching snapshot sends nothing. -/
theorem claim_c2_tick_alert_dispatch_witness :
    tickAlertsSent ⟨"0xmarket", some true⟩ 100 (Except.ok ⟨50, 7, 3, "cUSDCv3"⟩) 1700000000
      = [buildAlert ⟨"0xmarket", some true⟩ 100 ⟨50, 7, 3, "cUSDCv3"⟩ 1700000000] ∧
    tickAlertsSent ⟨"0xmarket", some false⟩ 100 (Except.ok ⟨50, 7, 3, "cUSDCv3"⟩) 1700000000
      = [] ∧
    tickAlertsSent ⟨"0xmarket", some true⟩ 100 (Except.ok ⟨200, 7, 3, "cUSDCv3"⟩) 1700000000
      = [] :=
  ⟨(claim_c2_tick_alert_dispatch ⟨"0xmarket", some true⟩ 100 ⟨50, 7, 3, "cUSDCv3"⟩
      1700000000).1 (by norm_num) (by decide),
    (claim_c2_tick_alert_dispatch ⟨"0xmarket", some false⟩ 100 ⟨50, 7, 3, "cUSDCv3"⟩
      1700000000).2.1 (by norm_num) (by decide),
    (claim_c2_tick_alert_dispatch ⟨"0xmarket", some true⟩ 100 ⟨200, 7, 3, "cUSDCv3"⟩
      1700000000).2.2 (by norm_num)⟩

/-- Claim C6: send_alert returns Ok for every HTTP response outcome, with
any status code, success or not (a non-success status is only a logged
warning); it returns an error exactly for a network-level transport
failure, wrapped with the source context message. -/
theorem claim_c6_send_alert_transport (alert : LiquidityAlert) :
    (∀ status : Nat, send_alert alert (WebhookOutcome.response status) = Except.ok ()) ∧
    (∀ status : Nat, statusIsSuccess status = false →
      send_alert alert (WebhookOutcome.response status) = Except.ok ()) ∧
    (∀ msg : String, send_alert alert (WebhookOutcome.transportError msg)
      = Except.error ("Failed to send webhook request: " ++ msg)) ∧
    (∀ outcome : WebhookOutcome,
      (∃ e, send_alert alert outcome = Except.error e)
        ↔ ∃ msg, outcome = WebhookOutcome.transportError msg) := by
  refine ⟨fun _ => rfl, fun _ _ => rfl, fun _ => rfl, ?_⟩
  intro outcome
  cases outcome with
  | transportError msg =>
    exact ⟨fun _ => ⟨msg, rfl⟩, fun _ => ⟨_, rfl⟩⟩
  | response status =>
    constructor
    · rintro ⟨e, he⟩
      exact absurd he (by simp [send_alert])
    · rintro ⟨msg, hmsg⟩
      exact absurd hmsg (by simp)

/-- Claim C6 witness: the non-success status 500 still yields Ok. -/
theorem claim_c6_send_alert_transport_witness :
    statusIsSuccess 500 = false ∧
    send_alert ⟨"a", "b", "1", "2", "3", "4", 0, "m"⟩ (WebhookOutcome.response 500)
      = Except.ok () :=
  ⟨by decide,
    (claim_c6_send_alert_transport ⟨"a", "b", "1", "2", "3", "4", 0, "m"⟩).2.1 500 (by decide)⟩

/-- Claim C7: with the configured version V2, every supply or withdraw
invocation with a well-formed amount fails with the configuration error
of src/main.rs lines 575-576 and 590-591, and (with any amount string at
all) no network call is attempted. -/
theorem claim_c7_v2_rejected_before_network (marketAddress : String)
    (cfgKey : Option String) (env : ChainEnv) (amountStr : String)
    (cliKey : Option String) (amount : Nat) :
    (parseDecNat amountStr = some amount →
      supplyCommand CompoundVersion.V2 marketAddress cfgKey env amountStr cliKey
        = ([], Except.error (MainError.configError v2ConfigErrorMsg)) ∧
      withdrawCommand CompoundVersion.V2 marketAddress cfgKey env amountStr cliKey
        = ([], Except.error (MainError.configError v2ConfigErrorMsg))) ∧
    (supplyCommand CompoundVersion.V2 marketAddress cfgKey env amountStr cliKey).1 = [] ∧
    (withdrawCommand CompoundVersion.V2 marketAddress cfgKey env amountStr cliKey).1 = [] := by
  refine ⟨?_, ?_, ?_⟩
  · intro h
    constructor
    · simp [supplyCommand, h]
    · simp [withdrawCommand, h]
  · cases h : parseDecNat amountStr with
    | none => simp [supplyCommand, h]
    | some a => simp [supplyCommand, h]
  · cases h : parseDecNat amountStr with
    | none => simp [withdrawCommand, h]
    | some a => simp [withdrawCommand, h]

/-- Claim C7 witness: the V2 rejection at the concrete amount 1000000. -/
theorem claim_c7_v2_rejected_before_network_witness :
    supplyCommand CompoundVersion.V2 "0xmkt" none ⟨"0xme", "0xusdc", 0⟩ "1000000" none
      = ([], Except.error (MainError.configError v2ConfigErrorMsg)) ∧
    withdrawCommand CompoundVersion.V2 "0xmkt" none ⟨"0xme", "0xusdc", 0⟩ "1000000" none
      = ([], Except.error (MainError.configError v2ConfigErrorMsg)) :=
  (claim_c7_v2_rejected_before_network "0xmkt" none ⟨"0xme", "0xusdc", 0⟩ "1000000"
    none 1000000).1 (by decide)

/-- Helper: the batch loop attempts every entry in order and records for
each one whether its lookup succeeded. -/
theorem batchLoop_eq_map (check : MonitorAddress → Except String Unit)
    (entries : List MonitorAddress) :
    batchLoop check entries = entries.map (fun e => (e, (check e).isOk)) := by
  induction entries with
  | nil => rfl
  | cons e t ih =>
    cases h : check e with
    | ok u => simp [batchLoop, h, ih, Except.isOk, Except.toBool]
    | error m => simp [batchLoop, h, ih, Except.isOk, Except.toBool]

/-- Claim C8: for every address list and every behaviour of the
single-address lookup, the batch attempts every entry in order (the
attempt list projects back to the entry list), one entry failing never
aborts the batch (every entry, also after a failed one, appears with its
own lookup outcome, successful entries with a produced report), and the
batch as a whole returns Ok. -/
theorem claim_c8_batch_partial_failure (check : MonitorAddress → Except String Unit)
    (entries : List MonitorAddress) :
    (check_balance_batch check entries).2 = Except.ok () ∧
    (check_balance_batch check entries).1
      = entries.map (fun e => (e, (check e).isOk)) ∧
    (∀ e ∈ entries, (e, (check e).isOk) ∈ (check_balance_batch check entries).1) := by
  have hmain : (check_balance_batch check entries).1
      = entries.map (fun e => (e, (check e).isOk)) := by
    cases entries with
    | nil => rfl
    | cons e t =>
      simp only [check_balance_batch, List.isEmpty_cons]
      exact batchLoop_eq_map check (e :: t)
  refine ⟨?_, hmain, ?_⟩
  · cases entries with
    | nil => rfl
    | cons e t => rfl
  · intro e he
    rw [hmain]
    exact List.mem_map.2 ⟨e, he, rfl⟩

/-- Claim C8 witness: a three-entry batch whose middle entry fails still
attempts all three in order, reports the two valid entries, and returns
Ok. -/
theorem claim_c8_batch_partial_failure_witness :
    (check_balance_batch
        (fun e => if e.address = "bad" then Except.error "Invalid address" else Except.ok ())
        [⟨"alice", "0xa"⟩, ⟨"broken", "bad"⟩, ⟨"bob", "0xb"⟩]).2 = Except.ok () ∧
    (check_balance_batch
        (fun e => if e.address = "bad" then Except.error "Invalid address" else Except.ok ())
        [⟨"alice", "0xa"⟩, ⟨"broken", "bad"⟩, ⟨"bob", "0xb"⟩]).1
      = [(⟨"alice", "0xa"⟩, true), (⟨"broken", "bad"⟩, false), (⟨"bob", "0xb"⟩, true)] ∧
    (⟨"bob", "0xb"⟩,
        ((fun (e : MonitorAddress) =>
          if e.address = "bad" then Except.error "Invalid address" else Except.ok ())
            ⟨"bob", "0xb"⟩).isOk)
      ∈ (check_balance_batch
          (fun e => if e.address = "bad" then Except.error "Invalid address" else Except.ok ())
          [⟨"alice", "0xa"⟩, ⟨"broken", "bad"⟩, ⟨"bob", "0xb"⟩]).1 :=
  ⟨(claim_c8_batch_partial_failure _ _).1,
    by
      rw [(claim_c8_batch_partial_failure _ _).2.1]
      decide,
    (claim_c8_batch_partial_failure _ _).2.2 ⟨"bob", "0xb"⟩ (by decide)⟩

/-- Claim C9: supply submits an approval exactly when the current
allowance is strictly below the requested amount, the approval is always
for U256::MAX toward the market contract and is awaited before the supply
transaction is sent (visible in the trace order), and withdraw performs
neither an allowance read nor an approval. -/
theorem claim_c9_supply_approval_conditional (marketAddress : String) (env : ChainEnv)
    (amount : Nat) :
    (env.allowance < amount →
      supply_v3_trace marketAddress env amount
        = [NetCall.baseTokenRead marketAddress,
           NetCall.allowanceRead env.walletAddr marketAddress,
           NetCall.approveTx marketAddress U256MAX, NetCall.awaitConfirm,
           NetCall.supplyTx env.baseTokenAddr amount, NetCall.awaitConfirm]) ∧
    (amount ≤ env.allowance →
      supply_v3_trace marketAddress env amount
        = [NetCall.baseTokenRead marketAddress,
           NetCall.allowanceRead env.walletAddr marketAddress,
           NetCall.supplyTx env.baseTokenAddr amount, NetCall.awaitConfirm]) ∧
    ((∃ s a, NetCall.approveTx s a ∈ supply_v3_trace marketAddress env amount)
      ↔ env.allowance < amount) ∧
    (∀ s a, NetCall.approveTx s a ∈ supply_v3_trace marketAddress env amount →
      s = marketAddress ∧ a = U256MAX) ∧
    (∀ s a, NetCall.approveTx s a ∉ withdraw_v3_trace marketAddress env amount) ∧
    (∀ o s, NetCall.allowanceRead o s ∉ withdraw_v3_trace marketAddress env amount) := by
  have htr : env.allowance < amount →
      supply_v3_trace marketAddress env amount
        = [NetCall.baseTokenRead marketAddress,
           NetCall.allowanceRead env.walletAddr marketAddress,
           NetCall.approveTx marketAddress U256MAX, NetCall.awaitConfirm,
           NetCall.supplyTx env.baseTokenAddr amount, NetCall.awaitConfirm] := by
    intro h
    simp [supply_v3_trace, h]
  have htr2 : amount ≤ env.allowance →
      supply_v3_trace marketAddress env amount
        = [NetCall.baseTokenRead marketAddress,
           NetCall.allowanceRead env.walletAddr marketAddress,
           NetCall.supplyTx env.baseTokenAddr amount, NetCall.awaitConfirm] := by
    intro h
    simp [supply_v3_trace, Nat.not_lt.mpr h]
  refine ⟨htr, htr2, ⟨?_, ?_⟩, ?_, ?_, ?_⟩
  · rintro ⟨s, a, hmem⟩
    by_contra hge
    rw [htr2 (Nat.not_lt.mp hge)] at hmem
    simp at hmem
  · intro h
    exact ⟨marketAddress, U256MAX, by rw [htr h]; simp⟩
  · intro s a hmem
    by_cases h : env.allowance < amount
    · rw [htr h] at hmem
      simp at hmem
      exact hmem
    · rw [htr2 (Nat.not_lt.mp h)] at hmem
      simp at hmem
  · intro s a hmem
    simp [withdraw_v3_trace] at hmem
  · intro o s hmem
    simp [withdraw_v3_trace] at hmem

/-- Claim C9 witness: with allowance 5 and amount 10 the approval for
U256::MAX is sent and confirmed before the supply transaction; with
allowance 20 no approval appears; withdraw never touches the allowance. -/
theorem claim_c9_supply_approval_conditional_witness :
    supply_v3_trace "0xmkt" ⟨"0xme", "0xusdc", 5⟩ 10
      = [NetCall.baseTokenRead "0xmkt", NetCall.allowanceRead "0xme" "0xmkt",
         NetCall.approveTx "0xmkt" U256MAX, NetCall.awaitConfirm,
         NetCall.supplyTx "0xusdc" 10, NetCall.awaitConfirm] ∧
    supply_v3_trace "0xmkt" ⟨"0xme", "0xusdc", 20⟩ 10
      = [NetCall.baseTokenRead "0xmkt", NetCall.allowanceRead "0xme" "0xmkt",
         NetCall.supplyTx "0xusdc" 10, NetCall.awaitConfirm] ∧
    (NetCall.allowanceRead "0xme" "0xmkt" ∉ withdraw_v3_trace "0xmkt" ⟨"0xme", "0xusdc", 5⟩ 10) :=
  ⟨(claim_c9_supply_approval_conditional "0xmkt" ⟨"0xme", "0xusdc", 5⟩ 10).1 (by norm_num),
    (claim_c9_supply_approval_conditional "0xmkt" ⟨"0xme", "0xusdc", 20⟩ 10).2.1 (by norm_num),
    (claim_c9_supply_approval_conditional "0xmkt" ⟨"0xme", "0xusdc", 5⟩ 10).2.2.2.2.2
      "0xme" "0xmkt"⟩
